import Mathlib

/-!
Verification development for the `sitemap.js` repository (src/lib/sitemap.ts
and the sitemap-index layer).  The TypeScript source is shallowly embedded:
the `Sitemap` class becomes a state record with explicit state passing, the
JavaScript `Map` becomes an insertion-ordered association list, throwing code
returns `Option`/`Except`, and wall-clock time is passed explicitly.
External collaborators (the WHATWG `URL` parser, `Date`, `statSync`,
`xmlbuilder`) are modelled by small executable functions, noted at each
definition.
-/

set_option autoImplicit false

/-- Predicate `strStartsWith s p`: true when `p` is a literal prefix of `s`
(character-list level, to ease reasoning about appended strings). -/
def strStartsWith (s p : String) : Bool :=
  p.data.isPrefixOf s.data

/-- Model of an absolute URL as the WHATWG parser accepts for the
schemes this repository uses: a string carrying an explicit
`http://` or `https://` scheme. -/
def isAbsoluteURL (s : String) : Bool :=
  strStartsWith s "http://" || strStartsWith s "https://"

/-- The origin (scheme plus host) of an absolute URL: everything up to the
first slash after the scheme (character-list level). -/
def urlOrigin (b : String) : String :=
  if strStartsWith b "http://" then
    "http://" ++ String.mk ((b.data.drop 7).takeWhile (fun c => c ≠ '/'))
  else if strStartsWith b "https://" then
    "https://" ++ String.mk ((b.data.drop 8).takeWhile (fun c => c ≠ '/'))
  else b

/-- Model of the external `url` module call `new URL(u, base).toString()`
(sitemap.ts line 233 and the image/link maps): an absolute URL is returned
as is; a relative URL is resolved against the configured base hostname
(an origin such as `https://example.com`); when that fails the constructor
throws a `TypeError`, modelled by `none`. -/
def resolveURL (u : String) (base : Option String) : Option String :=
  if isAbsoluteURL u then some u
  else
    match base with
    | none => none
    | some b =>
      if isAbsoluteURL b then
        some (urlOrigin b ++ (if strStartsWith u "/" then u else "/" ++ u))
      else none

/-- Enumeration `EnumYesNo` from types.ts. -/
inductive YesNo where
  | yes
  | no
deriving DecidableEq, Repr

/-- Structure `ISitemapImg`: an image descriptor (url plus the optional metadata the
spread `{...el, url: ...}` carries along). -/
structure ISitemapImg where
  url : String
  caption : Option String := none
  title : Option String := none
deriving DecidableEq, Repr

/-- Structure `ILinkItem`: an alternate-language link. -/
structure ILinkItem where
  lang : String
  url : String
deriving DecidableEq, Repr

/-- Symbolic value of the external `parseFloat` collaborator: a rating is
either a number passed through or the parse of a string. -/
inductive VideoRating where
  | parsedFrom (s : String)
  | val (r : Rat)
deriving DecidableEq, Repr

/-- Loose video descriptor (`IVideoItem` as accepted on input): tri-state
flags may be booleans or already-encoded yes/no values, `tag` a scalar or a
list, `rating` a string or a number, `view_count` a number. -/
structure IVideoItemLoose where
  thumbnail_loc : String
  title : String
  description : String
  family_friendly : Option (Sum Bool YesNo) := none
  live : Option (Sum Bool YesNo) := none
  requires_subscription : Option (Sum Bool YesNo) := none
  tag : Option (Sum String (List String)) := none
  rating : Option (Sum String Rat) := none
  view_count : Option Nat := none
deriving DecidableEq, Repr

/-- Strict video descriptor as produced by normalization (sitemap.ts
lines 265-294). -/
structure IVideoItem where
  thumbnail_loc : String
  title : String
  description : String
  family_friendly : Option YesNo := none
  live : Option YesNo := none
  requires_subscription : Option YesNo := none
  tag : List String := []
  rating : Option VideoRating := none
  view_count : Option String := none
deriving DecidableEq, Repr

/-- The `img` field of a loose entry: `string | ISitemapImg |
(string | ISitemapImg)[]` (types.ts). -/
inductive ImgLooseField where
  | str (s : String)
  | one (i : ISitemapImg)
  | many (l : List (Sum String ISitemapImg))
deriving DecidableEq, Repr

/-- The `video` field of a loose entry: a scalar or a list. -/
inductive VideoLooseField where
  | one (v : IVideoItemLoose)
  | many (l : List IVideoItemLoose)
deriving DecidableEq, Repr

/-- The resolved last-modified value of a strict entry.  The external `Date`
and `statSync` collaborators are symbolic: `fromFile p` stands for
`new Date(statSync(p).mtime).toISOString()`, `fromDateString s` for
`new Date(s).toISOString()`, and `raw s` for a loose `lastmod` string that
reached the strict record untouched through the final object spread. -/
inductive LastmodVal where
  | fromFile (path : String)
  | fromDateString (s : String)
  | raw (s : String)
deriving DecidableEq, Repr

/-- Structure `ISitemapItemOptionsLoose` (types.ts): the caller-supplied entry. -/
structure ISitemapItemOptionsLoose where
  url : String
  img : Option ImgLooseField := none
  video : Option VideoLooseField := none
  links : Option (List ILinkItem) := none
  lastmod : Option String := none
  lastmodISO : Option String := none
  lastmodfile : Option String := none
  changefreq : Option String := none
  priority : Option Rat := none
deriving DecidableEq, Repr

/-- Structure `SitemapItemOptions` (types.ts): the strict entry produced by
`Sitemap.normalizeURL`.  The `lastmodISO`/`lastmodfile`/`changefreq`/
`priority` fields are the loose fields carried through by the final
spread `smi = {...smiLoose, ...smi}` (sitemap.ts line 310). -/
structure SitemapItemOptions where
  url : String
  img : List ISitemapImg := []
  video : List IVideoItem := []
  links : List ILinkItem := []
  lastmod : Option LastmodVal := none
  lastmodISO : Option String := none
  lastmodfile : Option String := none
  changefreq : Option String := none
  priority : Option Rat := none
deriving DecidableEq, Repr

/-- JavaScript truthiness of an optional string field: present and
non-empty. -/
def truthy : Option String → Bool
  | none => false
  | some s => s != ""

/-- Function `boolToYESNO` (sitemap.ts lines 28-36): `undefined` stays `undefined`,
a boolean maps to yes/no, an already-encoded value passes through. -/
def boolToYESNO : Option (Sum Bool YesNo) → Option YesNo
  | none => none
  | some (Sum.inl b) => some (if b then YesNo.yes else YesNo.no)
  | some (Sum.inr y) => some y

/-- Function `normalizeVideo`: the per-video body of the map at sitemap.ts
lines 265-294 (flag encoding, tag arrayification, rating parse,
view-count stringification). -/
def normalizeVideo (video : IVideoItemLoose) : IVideoItem :=
  let nv : IVideoItem :=
    { thumbnail_loc := video.thumbnail_loc
      title := video.title
      description := video.description
      family_friendly := boolToYESNO video.family_friendly
      live := boolToYESNO video.live
      requires_subscription := boolToYESNO video.requires_subscription
      tag := []
      rating := none }
  let nv :=
    match video.tag with
    | none => nv
    | some (Sum.inl t) => { nv with tag := [t] }
    | some (Sum.inr ts) => { nv with tag := ts }
  let nv :=
    match video.rating with
    | none => nv
    | some (Sum.inl s) => { nv with rating := some (VideoRating.parsedFrom s) }
    | some (Sum.inr r) => { nv with rating := some (VideoRating.val r) }
  match video.view_count with
  | none => nv
  | some n => { nv with view_count := some (Nat.repr n) }

/-- The in-place rewrite of `smiLoose.img` at sitemap.ts lines 237-243:
a string or single object is replaced by its one-element array form;
an array (or an absent field) is left alone. -/
def mutateImg (l : ISitemapItemOptionsLoose) : ISitemapItemOptionsLoose :=
  match l.img with
  | some (ImgLooseField.str s) =>
      { l with img := some (ImgLooseField.many [Sum.inr { url := s }]) }
  | some (ImgLooseField.one i) =>
      { l with img := some (ImgLooseField.many [Sum.inr i]) }
  | _ => l

/-- The read of `smiLoose.img` as a list of image objects (sitemap.ts
line 245: strings become `{url}` objects). -/
def imgToArray : Option ImgLooseField → List ISitemapImg
  | none => []
  | some (ImgLooseField.str s) => [{ url := s }]
  | some (ImgLooseField.one i) => [i]
  | some (ImgLooseField.many l) =>
      l.map (fun el =>
        match el with
        | Sum.inl s => { url := s }
        | Sum.inr i => i)

/-- The in-place rewrite of `smiLoose.video` at sitemap.ts lines 261-264:
a scalar video is replaced by its one-element array form. -/
def mutateVideo (l : ISitemapItemOptionsLoose) : ISitemapItemOptionsLoose :=
  match l.video with
  | some (VideoLooseField.one v) => { l with video := some (VideoLooseField.many [v]) }
  | _ => l

/-- The read of `smiLoose.video` as a list. -/
def videoToArray : Option VideoLooseField → List IVideoItemLoose
  | none => []
  | some (VideoLooseField.one v) => [v]
  | some (VideoLooseField.many vs) => vs

/-- Image-URL resolution of sitemap.ts lines 248-250: every image URL is
resolved against the hostname, other image fields spread through; a
resolution failure throws (models `none`). -/
def resolveImgs (hostname : Option String) : List ISitemapImg → Option (List ISitemapImg)
  | [] => some []
  | el :: rest =>
    match resolveURL el.url hostname with
    | none => none
    | some u => (resolveImgs hostname rest).map (fun r => { el with url := u } :: r)

/-- Link-URL resolution of sitemap.ts lines 256-258. -/
def resolveLinks (hostname : Option String) : List ILinkItem → Option (List ILinkItem)
  | [] => some []
  | el :: rest =>
    match resolveURL el.url hostname with
    | none => none
    | some u => (resolveLinks hostname rest).map (fun r => { el with url := u } :: r)

/-- Last-modified resolution of sitemap.ts lines 297-308 combined with the
final spread of line 310: `lastmodfile`, then `lastmodISO`, then `lastmod`,
each gated by JavaScript truthiness; when no branch fires, the loose
`lastmod` string (necessarily empty if present) reaches the strict record
through the spread. -/
def resolveLastmod (l : ISitemapItemOptionsLoose) : Option LastmodVal :=
  if truthy l.lastmodfile then l.lastmodfile.map LastmodVal.fromFile
  else if truthy l.lastmodISO then l.lastmodISO.map LastmodVal.fromDateString
  else if truthy l.lastmod then l.lastmod.map LastmodVal.fromDateString
  else l.lastmod.map LastmodVal.raw

/-- Function `Sitemap.normalizeURL` (sitemap.ts lines 216-312), returning both the
strict entry and the caller's loose object as it stands after the call
(the source mutates `smiLoose`, which aliases an object-shaped `elem`).
A thrown `TypeError` from URL resolution is `none`. -/
def Sitemap.normalizeURLFull (elem : Sum String ISitemapItemOptionsLoose)
    (hostname : Option String) :
    Option (SitemapItemOptions × ISitemapItemOptionsLoose) :=
  let smiLoose : ISitemapItemOptionsLoose :=
    match elem with
    | Sum.inl s => { url := s }
    | Sum.inr l => l
  match resolveURL smiLoose.url hostname with
  | none => none
  | some url =>
    let smiLoose := mutateImg smiLoose
    match resolveImgs hostname (imgToArray smiLoose.img) with
    | none => none
    | some img =>
      match resolveLinks hostname ((smiLoose.links).getD []) with
      | none => none
      | some links =>
        let smiLoose := mutateVideo smiLoose
        let video := (videoToArray smiLoose.video).map normalizeVideo
        some
          ({ url := url
             img := img
             video := video
             links := links
             lastmod := resolveLastmod smiLoose
             lastmodISO := smiLoose.lastmodISO
             lastmodfile := smiLoose.lastmodfile
             changefreq := smiLoose.changefreq
             priority := smiLoose.priority }, smiLoose)

/-- Wrapper `Sitemap.normalizeURL` as its callers use it: the strict entry only. -/
def Sitemap.normalizeURL (elem : Sum String ISitemapItemOptionsLoose)
    (hostname : Option String) : Option SitemapItemOptions :=
  (Sitemap.normalizeURLFull elem hostname).map Prod.fst

/-- JavaScript `Map.set`: replace the value in place when the key exists
(keeping its insertion position), otherwise append a new entry. -/
def mapSet {α : Type} : List (String × α) → String → α → List (String × α)
  | [], k, v => [(k, v)]
  | p :: rest, k, v =>
    if p.1 == k then (k, v) :: rest else p :: mapSet rest k v

/-- JavaScript `Map.has`. -/
def mapHas {α : Type} : List (String × α) → String → Bool
  | [], _ => false
  | p :: rest, k => p.1 == k || mapHas rest k

/-- JavaScript `Map.get`. -/
def mapGet {α : Type} : List (String × α) → String → Option α
  | [], _ => none
  | p :: rest, k => if p.1 == k then some p.2 else mapGet rest k

/-- JavaScript `Map.delete` (the state part): remove the entry. -/
def mapDelete {α : Type} (m : List (String × α)) (k : String) : List (String × α) :=
  m.filter (fun p => !(p.1 == k))

/-- Function `Sitemap.normalizeURLs` (sitemap.ts lines 321-328): normalize each
input in order, folding into a map keyed by resolved URL. -/
def Sitemap.normalizeURLsAux (hostname : Option String)
    (m : List (String × SitemapItemOptions)) :
    List (Sum String ISitemapItemOptionsLoose) →
    Option (List (String × SitemapItemOptions))
  | [] => some m
  | e :: rest =>
    match Sitemap.normalizeURL e hostname with
    | none => none
    | some smi => Sitemap.normalizeURLsAux hostname (mapSet m smi.url smi) rest

/-- Function `Sitemap.normalizeURLs`, entry point. -/
def Sitemap.normalizeURLs (urls : List (Sum String ISitemapItemOptionsLoose))
    (hostname : Option String) : Option (List (String × SitemapItemOptions)) :=
  Sitemap.normalizeURLsAux hostname [] urls

/-- The state of a `Sitemap` instance (sitemap.ts lines 79-136).  The
`root` xmlbuilder object is external and carries no observable state the
verified properties depend on; wall-clock time is passed to the operations
explicitly. -/
structure SitemapState where
  limit : Nat
  urls : List (String × SitemapItemOptions)
  cacheTime : Nat
  cache : String
  cacheSetTimestamp : Nat
  hostname : Option String
  xslUrl : Option String
  xmlNs : Option String
deriving DecidableEq, Repr

/-- The `Sitemap` constructor (sitemap.ts lines 102-136): field
initialisation (`limit = 5000`, `cache = ''`, `cacheSetTimestamp = 0`)
plus normalization of the initial urls; a normalization throw is `none`. -/
def Sitemap.create (urls : List (Sum String ISitemapItemOptionsLoose))
    (hostname : Option String) (cacheTime : Nat)
    (xslUrl : Option String := none) (xmlNs : Option String := none) :
    Option SitemapState :=
  (Sitemap.normalizeURLs urls hostname).map (fun m =>
    { limit := 5000
      urls := m
      cacheTime := cacheTime
      cache := ""
      cacheSetTimestamp := 0
      hostname := hostname
      xslUrl := xslUrl
      xmlNs := xmlNs })

/-- Method `Sitemap.add` (sitemap.ts lines 176-180): normalize, insert/replace by
resolved URL, return the new map size.  `validateSMIOptions` (utils.ts) at
the default warn level only logs and is omitted. -/
def Sitemap.add (s : SitemapState) (url : Sum String ISitemapItemOptionsLoose) :
    Option (SitemapState × Nat) :=
  (Sitemap.normalizeURL url s.hostname).map (fun smi =>
    let urls := mapSet s.urls smi.url smi
    ({ s with urls := urls }, urls.length))

/-- Method `Sitemap.contains` (sitemap.ts lines 187-189). -/
def Sitemap.contains (s : SitemapState) (url : Sum String ISitemapItemOptionsLoose) :
    Option Bool :=
  (Sitemap.normalizeURL url s.hostname).map (fun smi => mapHas s.urls smi.url)

/-- Method `Sitemap.del` (sitemap.ts lines 196-199): the boolean is what
`Map.delete` reports, namely whether the entry existed. -/
def Sitemap.del (s : SitemapState) (url : Sum String ISitemapItemOptionsLoose) :
    Option (SitemapState × Bool) :=
  (Sitemap.normalizeURL url s.hostname).map (fun smi =>
    ({ s with urls := mapDelete s.urls smi.url }, mapHas s.urls smi.url))

/-- Method `Sitemap.clearCache` (sitemap.ts lines 141-143). -/
def Sitemap.clearCache (s : SitemapState) : SitemapState :=
  { s with cache := "" }

/-- Method `Sitemap.isCacheValid` (sitemap.ts lines 149-153): a non-zero TTL, a
non-empty cached string, and `cacheSetTimestamp + cacheTime >= now`. -/
def Sitemap.isCacheValid (s : SitemapState) (now : Nat) : Bool :=
  (s.cacheTime != 0) && (s.cache != "") &&
    decide (now ≤ s.cacheSetTimestamp + s.cacheTime)

/-- Method `Sitemap.setCache` (sitemap.ts lines 161-165). -/
def Sitemap.setCache (s : SitemapState) (newCache : String) (now : Nat) : SitemapState :=
  { s with cache := newCache, cacheSetTimestamp := now }

/-- The fixed document preamble (sitemap.ts line 25). -/
def preamble : String :=
  "<?xml version=\"1.0\" encoding=\"UTF-8\"?><urlset xmlns=\"http://www.sitemaps.org/schemas/sitemap/0.9\" xmlns:news=\"http://www.google.com/schemas/sitemap-news/0.9\" xmlns:xhtml=\"http://www.w3.org/1999/xhtml\" xmlns:mobile=\"http://www.google.com/schemas/sitemap-mobile/1.0\" xmlns:image=\"http://www.google.com/schemas/sitemap-image/1.1\" xmlns:video=\"http://www.google.com/schemas/sitemap-video/1.1\">"

/-- The root closing tag (sitemap.ts line 26). -/
def closetag : String := "</urlset>"

/-- Modelled from the spec: `SitemapItem.buildXML` / `SitemapItem.justItem`
(sitemap-item.ts, which is not under src/) serialize one entry to its XML
fragment.  The verified properties use only that the fragment is a
deterministic function of the entry, so the fragment is modelled by the
entry's `loc` element. -/
def renderItem (e : SitemapItemOptions) : String :=
  "<url><loc>" ++ e.url ++ "</loc></url>"

/-- Modelled from the spec: the serialized document body built by
`Sitemap.toString` through the external xmlbuilder — the preamble with the
default namespace set, an optional stylesheet instruction, one fragment per
entry in insertion order, and the closing tag. -/
def Sitemap.renderXsl : Option String → String
  | some x => "<?xml-stylesheet type=\"text/xsl\" href=\"" ++ x ++ "\"?>"
  | none => ""

/-- The document text: optional stylesheet instruction, preamble, one
fragment per entry in insertion order, closing tag. -/
def Sitemap.renderBody (xslUrl : Option String)
    (urls : List (String × SitemapItemOptions)) : String :=
  Sitemap.renderXsl xslUrl ++
    preamble ++ String.join (urls.map (fun p => renderItem p.2)) ++ closetag

/-- The document serialization of a state. -/
def Sitemap.renderSitemap (s : SitemapState) : String :=
  Sitemap.renderBody s.xslUrl s.urls

/-- Method `Sitemap.toString` (sitemap.ts lines 336-367): return the cached string
when the cache is valid, otherwise serialize, store the result with the
current timestamp, and return it. -/
def Sitemap.toString (s : SitemapState) (now : Nat) : SitemapState × String :=
  if Sitemap.isCacheValid s now then (s, s.cache)
  else
    let xml := Sitemap.renderSitemap s
    (Sitemap.setCache s xml now, xml)

/-- Method `Sitemap.toXML` (sitemap.ts lines 205-207): alias for `toString`. -/
def Sitemap.toXML (s : SitemapState) (now : Nat) : SitemapState × String :=
  Sitemap.toString s now

/-- One chunk pushed by the streaming emitter.  The per-entry fragment text
comes from `SitemapItem.justItem` (sitemap-item.ts, outside src/), so a
chunk records which of the three kinds of output it is and, for an entry
fragment, the normalized entry it renders. -/
inductive StreamChunk where
  | head
  | item (e : SitemapItemOptions)
  | close
deriving DecidableEq, Repr

/-- The state of a `SitemapStream` (sitemap.ts lines 390-421): the
`hasHeadOutput` flag, the configured hostname, and the chunks pushed so
far. -/
structure SitemapStreamState where
  hasHeadOutput : Bool
  hostname : Option String
  out : List StreamChunk
deriving DecidableEq, Repr

/-- A freshly constructed stream (sitemap.ts lines 395-401). -/
def SitemapStream.init (hostname : Option String) : SitemapStreamState :=
  { hasHeadOutput := false, hostname := hostname, out := [] }

/-- Method `SitemapStream._transform` (sitemap.ts lines 403-415): on the first
entry push the preamble first, then normalize the entry and push its
fragment; a normalization throw is `none`. -/
def SitemapStream.transform (st : SitemapStreamState)
    (item : ISitemapItemOptionsLoose) : Option SitemapStreamState :=
  let st :=
    if st.hasHeadOutput then st
    else { st with hasHeadOutput := true, out := st.out ++ [StreamChunk.head] }
  (Sitemap.normalizeURL (Sum.inr item) st.hostname).map (fun smi =>
    { st with out := st.out ++ [StreamChunk.item smi] })

/-- Method `SitemapStream._flush` (sitemap.ts lines 417-420): push the closing
tag unconditionally on stream end. -/
def SitemapStream.flush (st : SitemapStreamState) : SitemapStreamState :=
  { st with out := st.out ++ [StreamChunk.close] }

/-- Feed a list of entries through `_transform` and end the stream. -/
def SitemapStream.runFrom (st : SitemapStreamState) :
    List ISitemapItemOptionsLoose → Option SitemapStreamState
  | [] => some (SitemapStream.flush st)
  | i :: rest =>
    match SitemapStream.transform st i with
    | none => none
    | some st1 => SitemapStream.runFrom st1 rest

/-- The total output of a stream fed a list of entries. -/
def SitemapStream.run (hostname : Option String)
    (items : List ISitemapItemOptionsLoose) : Option (List StreamChunk) :=
  (SitemapStream.runFrom (SitemapStream.init hostname) items).map
    SitemapStreamState.out

/-- Normalization of a list of entries, fixing the shape every entry takes
when all of them normalize successfully. -/
def Sitemap.normalizeList (hostname : Option String) :
    List ISitemapItemOptionsLoose → Option (List SitemapItemOptions)
  | [] => some []
  | i :: rest =>
    match Sitemap.normalizeURL (Sum.inr i) hostname with
    | none => none
    | some e => (Sitemap.normalizeList hostname rest).map (fun r => e :: r)

/-- Number of preamble chunks in a stream output. -/
def countHead : List StreamChunk → Nat
  | [] => 0
  | StreamChunk.head :: rest => countHead rest + 1
  | _ :: rest => countHead rest

/-- Partition a list into consecutive chunks of at most `n` elements,
preserving order (the `sitemapSize` split of the index orchestrator). -/
def chunkEvery {α : Type} (n : Nat) (l : List α) : List (List α) :=
  let p := l.foldl
    (fun (acc : List (List α) × List α) x =>
      if acc.2.length + 1 = n then (acc.1 ++ [acc.2 ++ [x]], ([] : List α))
      else (acc.1, acc.2 ++ [x]))
    ([], [])
  if p.2.isEmpty then p.1 else p.1 ++ [p.2]

/-- The error kinds of the index orchestrator: the configuration
precondition (`UndefinedTargetFolder`, per the spec and the repository's
sitemap-index test) is a distinct constructor from data-dependent runtime
errors. -/
inductive IndexError where
  | undefinedTargetFolder
  | runtime (msg : String)
deriving DecidableEq, Repr

/-- The configuration accepted by `createSitemapIndex`. -/
structure SitemapIndexConfig where
  urls : List (Sum String ISitemapItemOptionsLoose)
  sitemapName : String := "sitemap"
  sitemapSize : Nat := 50000
  targetFolder : Option String := none
  hostname : Option String := none
deriving Repr

/-- Modelled from the spec: the sitemap-index document (root `sitemapindex`,
one `sitemap` child with a `loc` per partitioned document); the
implementation (`buildSitemapIndex` in sitemap-index.ts) is not under
src/. -/
def renderSitemapIndex (locs : List String) : String :=
  "<?xml version=\"1.0\" encoding=\"UTF-8\"?>" ++
  "<sitemapindex xmlns=\"https://www.sitemaps.org/schemas/sitemap/0.9\">" ++
  String.join (locs.map (fun l => "<sitemap><loc>" ++ l ++ "</loc></sitemap>")) ++
  "</sitemapindex>"

/-- Modelled from the spec: `createSitemapIndex` (sitemap-index.ts, not
under src/; its behaviour is fixed by spec 4.5 and the repository's
sitemap-index test).  The file-system collaborator is the injected
`folderExists`; a missing or non-existent target folder raises the
`UndefinedTargetFolder` configuration error before any partitioning work,
so an error result carries no written file.  On success the result is the
list of written files (path and contents): one document per chunk of at
most `sitemapSize` urls, then the index document referencing them. -/
def createSitemapIndex (folderExists : String → Bool)
    (conf : SitemapIndexConfig) :
    Except IndexError (List (String × String)) :=
  match conf.targetFolder with
  | none => Except.error IndexError.undefinedTargetFolder
  | some tf =>
    if folderExists tf then
      let chunks := chunkEvery conf.sitemapSize conf.urls
      match (chunks.enum).mapM (fun p =>
          (Sitemap.normalizeURLs p.2 conf.hostname).map (fun m =>
            (tf ++ "/" ++ conf.sitemapName ++ "-" ++ Nat.repr p.1 ++ ".xml",
             Sitemap.renderBody none m))) with
      | none => Except.error (IndexError.runtime "invalid URL in input")
      | some files =>
        Except.ok (files ++
          [(tf ++ "/" ++ conf.sitemapName ++ "-index.xml",
            renderSitemapIndex (files.map Prod.fst))])
    else Except.error IndexError.undefinedTargetFolder

theorem mapSet_mapSet_same {α : Type} (m : List (String × α)) (k : String) (v w : α) :
    mapSet (mapSet m k v) k w = mapSet m k w := by
  induction m with
  | nil => simp [mapSet]
  | cons p rest ih =>
    by_cases h : p.1 == k
    · simp [mapSet, h]
    · simp [mapSet, h, ih]

theorem length_mapSet_congr {α : Type} (m : List (String × α)) (k : String) (v w : α) :
    (mapSet m k v).length = (mapSet m k w).length := by
  induction m with
  | nil => rfl
  | cons p rest ih => by_cases h : p.1 == k <;> simp [mapSet, h, ih]

theorem mapGet_mapSet_self {α : Type} (m : List (String × α)) (k : String) (v : α) :
    mapGet (mapSet m k v) k = some v := by
  induction m with
  | nil => simp [mapSet, mapGet]
  | cons p rest ih => by_cases h : p.1 == k <;> simp [mapSet, mapGet, h, ih]

theorem mapHas_mapSet_self {α : Type} (m : List (String × α)) (k : String) (v : α) :
    mapHas (mapSet m k v) k = true := by
  induction m with
  | nil => simp [mapSet, mapHas]
  | cons p rest ih => by_cases h : p.1 == k <;> simp [mapSet, mapHas, h, ih]

theorem mapHas_mapDelete_self {α : Type} (m : List (String × α)) (k : String) :
    mapHas (mapDelete m k) k = false := by
  induction m with
  | nil => rfl
  | cons p rest ih =>
    by_cases h : p.1 == k
    · simpa [mapDelete, List.filter_cons, h] using ih
    · simpa [mapDelete, List.filter_cons, h, mapHas] using ih

/-- C1: adding an entry whose resolved URL is already present replaces the
existing entry rather than adding a second one — for every document and
every pair of loose entries resolving to the same URL, adding the URL twice
(with possibly different metadata) yields the same entry count as adding it
once, and the entry retained under that URL is the one from the second
add. -/
theorem add_same_url_replaces (s : SitemapState)
    (u1 u2 : Sum String ISitemapItemOptionsLoose) (e1 e2 : SitemapItemOptions)
    (h1 : Sitemap.normalizeURL u1 s.hostname = some e1)
    (h2 : Sitemap.normalizeURL u2 s.hostname = some e2)
    (hurl : e1.url = e2.url) :
    Sitemap.add s u1 =
      some ({ s with urls := mapSet s.urls e1.url e1 }, (mapSet s.urls e1.url e1).length) ∧
    Sitemap.add { s with urls := mapSet s.urls e1.url e1 } u2 =
      some ({ s with urls := mapSet (mapSet s.urls e1.url e1) e2.url e2 },
            (mapSet (mapSet s.urls e1.url e1) e2.url e2).length) ∧
    mapSet (mapSet s.urls e1.url e1) e2.url e2 = mapSet s.urls e2.url e2 ∧
    (mapSet (mapSet s.urls e1.url e1) e2.url e2).length = (mapSet s.urls e1.url e1).length ∧
    mapGet (mapSet (mapSet s.urls e1.url e1) e2.url e2) e2.url = some e2 := by
  refine ⟨by simp [Sitemap.add, h1], by simp [Sitemap.add, h2], ?_, ?_, ?_⟩
  · rw [← hurl, mapSet_mapSet_same]
  · rw [← hurl, mapSet_mapSet_same]
    exact length_mapSet_congr s.urls e1.url e2 e1
  · exact mapGet_mapSet_self _ _ _

def sitemapC1w : SitemapState :=
  { limit := 5000, urls := [], cacheTime := 0, cache := "", cacheSetTimestamp := 0,
    hostname := none, xslUrl := none, xmlNs := none }

def looseC1w : ISitemapItemOptionsLoose :=
  { url := "http://e.co/a", changefreq := some "daily" }

def entryC1wFirst : SitemapItemOptions := { url := "http://e.co/a" }

def entryC1wSecond : SitemapItemOptions :=
  { url := "http://e.co/a", changefreq := some "daily" }

theorem add_same_url_replaces_witness :
    Sitemap.add sitemapC1w (Sum.inl "http://e.co/a") =
      some ({ sitemapC1w with urls := [("http://e.co/a", entryC1wFirst)] }, 1) ∧
    Sitemap.add { sitemapC1w with urls := [("http://e.co/a", entryC1wFirst)] }
        (Sum.inr looseC1w) =
      some ({ sitemapC1w with urls := [("http://e.co/a", entryC1wSecond)] }, 1) ∧
    [("http://e.co/a", entryC1wSecond)] =
      mapSet sitemapC1w.urls entryC1wSecond.url entryC1wSecond ∧
    ([("http://e.co/a", entryC1wSecond)] : List (String × SitemapItemOptions)).length = 1 ∧
    mapGet [("http://e.co/a", entryC1wSecond)] "http://e.co/a" = some entryC1wSecond := by
  have h := add_same_url_replaces sitemapC1w (Sum.inl "http://e.co/a") (Sum.inr looseC1w)
    entryC1wFirst entryC1wSecond rfl rfl rfl
  exact h

/-- C6: for every entry that normalizes successfully, `contains` is true
immediately after `add` and false immediately after `del`, where `contains`
and `del` resolve their argument exactly as `add` does; `del` returns true
exactly when an entry with the resolved URL existed before the call (which
is what `contains` reported on the pre-call state). -/
theorem contains_add_del (s : SitemapState)
    (u : Sum String ISitemapItemOptionsLoose) (e : SitemapItemOptions)
    (h : Sitemap.normalizeURL u s.hostname = some e) :
    Sitemap.add s u =
      some ({ s with urls := mapSet s.urls e.url e }, (mapSet s.urls e.url e).length) ∧
    Sitemap.contains { s with urls := mapSet s.urls e.url e } u = some true ∧
    Sitemap.del s u =
      some ({ s with urls := mapDelete s.urls e.url }, mapHas s.urls e.url) ∧
    Sitemap.contains { s with urls := mapDelete s.urls e.url } u = some false ∧
    Sitemap.contains s u = some (mapHas s.urls e.url) := by
  refine ⟨by simp [Sitemap.add, h], ?_, by simp [Sitemap.del, h], ?_, by simp [Sitemap.contains, h]⟩
  · simp [Sitemap.contains, h, mapHas_mapSet_self]
  · simp [Sitemap.contains, h, mapHas_mapDelete_self]

theorem contains_add_del_witness :
    Sitemap.add sitemapC1w (Sum.inl "http://e.co/a") =
      some ({ sitemapC1w with urls := [("http://e.co/a", entryC1wFirst)] }, 1) ∧
    Sitemap.contains { sitemapC1w with urls := [("http://e.co/a", entryC1wFirst)] }
      (Sum.inl "http://e.co/a") = some true ∧
    Sitemap.del sitemapC1w (Sum.inl "http://e.co/a") =
      some ({ sitemapC1w with urls := [] }, false) ∧
    Sitemap.contains { sitemapC1w with urls := ([] : List (String × SitemapItemOptions)) }
      (Sum.inl "http://e.co/a") = some false ∧
    Sitemap.contains sitemapC1w (Sum.inl "http://e.co/a") = some false := by
  have h := contains_add_del sitemapC1w (Sum.inl "http://e.co/a") entryC1wFirst rfl
  exact h

/-- C7: a successful add and a successful delete leave the cache slot (the
cached string, its timestamp, and the TTL) unchanged; the explicit
`clearCache` operation empties the cached string, invalidating the cache at
every instant, so the next serialization regenerates the document from the
entries. -/
theorem add_del_cache_frame (s : SitemapState)
    (u : Sum String ISitemapItemOptionsLoose) (e : SitemapItemOptions) (now : Nat)
    (h : Sitemap.normalizeURL u s.hostname = some e) :
    (Sitemap.add s u).map (fun p => (p.1.cache, p.1.cacheSetTimestamp, p.1.cacheTime))
      = some (s.cache, s.cacheSetTimestamp, s.cacheTime) ∧
    (Sitemap.del s u).map (fun p => (p.1.cache, p.1.cacheSetTimestamp, p.1.cacheTime))
      = some (s.cache, s.cacheSetTimestamp, s.cacheTime) ∧
    (Sitemap.clearCache s).cache = "" ∧
    (Sitemap.clearCache s).urls = s.urls ∧
    Sitemap.isCacheValid (Sitemap.clearCache s) now = false ∧
    (Sitemap.toString (Sitemap.clearCache s) now).2 = Sitemap.renderSitemap s := by
  have hcv : Sitemap.isCacheValid (Sitemap.clearCache s) now = false := by
    simp [Sitemap.isCacheValid, Sitemap.clearCache]
  refine ⟨by simp [Sitemap.add, h], by simp [Sitemap.del, h], rfl, rfl, hcv, ?_⟩
  rw [Sitemap.toString, hcv]
  simp [Sitemap.renderSitemap, Sitemap.clearCache]

def sitemapC7w : SitemapState :=
  { limit := 5000, urls := [], cacheTime := 60, cache := "stale", cacheSetTimestamp := 0,
    hostname := none, xslUrl := none, xmlNs := none }

theorem add_del_cache_frame_witness :
    (Sitemap.add sitemapC7w (Sum.inl "http://e.co/a")).map
        (fun p => (p.1.cache, p.1.cacheSetTimestamp, p.1.cacheTime))
      = some ("stale", 0, 60) ∧
    (Sitemap.del sitemapC7w (Sum.inl "http://e.co/a")).map
        (fun p => (p.1.cache, p.1.cacheSetTimestamp, p.1.cacheTime))
      = some ("stale", 0, 60) ∧
    (Sitemap.clearCache sitemapC7w).cache = "" ∧
    (Sitemap.clearCache sitemapC7w).urls = sitemapC7w.urls ∧
    Sitemap.isCacheValid (Sitemap.clearCache sitemapC7w) 10 = false ∧
    (Sitemap.toString (Sitemap.clearCache sitemapC7w) 10).2 =
      Sitemap.renderSitemap sitemapC7w := by
  have h := add_del_cache_frame sitemapC7w (Sum.inl "http://e.co/a") entryC1wFirst 10 rfl
  exact h

/-- C9: the source initializes the per-document size limit to 5,000
(sitemap.ts line 82), although the comment above it cites the sitemaps.org
protocol, whose limit — and the spec's stated default partition
threshold — is 50,000. -/
theorem limit_is_5000 :
    (Sitemap.create [] none 0).map SitemapState.limit = some 5000 ∧
    (Sitemap.create [] none 0).map SitemapState.limit ≠ some 50000 := by
  refine ⟨rfl, by decide⟩

theorem renderBody_ne_empty (xslUrl : Option String)
    (urls : List (String × SitemapItemOptions)) :
    Sitemap.renderBody xslUrl urls ≠ "" := by
  intro h
  have hl := congrArg String.length h
  unfold Sitemap.renderBody at hl
  simp only [String.length_append] at hl
  have hc : closetag.length = 9 := rfl
  have h0 : String.length "" = 0 := rfl
  rw [hc, h0] at hl
  omega

theorem renderSitemap_ne_empty (s : SitemapState) : Sitemap.renderSitemap s ≠ "" :=
  renderBody_ne_empty s.xslUrl s.urls

theorem toString_hit (s : SitemapState) (now : Nat)
    (hv : Sitemap.isCacheValid s now = true) :
    Sitemap.toString s now = (s, s.cache) := by
  simp [Sitemap.toString, hv]

theorem toString_miss (s : SitemapState) (now : Nat)
    (hv : Sitemap.isCacheValid s now = false) :
    Sitemap.toString s now =
      (Sitemap.setCache s (Sitemap.renderSitemap s) now, Sitemap.renderSitemap s) := by
  simp [Sitemap.toString, hv]

/-- C3: serialization obeys the cache rule and is deterministic — a valid
cached string (non-zero TTL, non-empty cache, within the window) is
returned unchanged with no state change; a TTL of 0 makes every call
reserialize; two serializations of an unmodified document within the TTL
are byte-identical; and a serialization whose cache check fails (in
particular after the TTL has expired), with no state change in between,
regenerates the content-identical document determined by the entries
alone. -/
theorem toString_cache_spec (s : SitemapState) (t1 t2 : Nat) :
    (Sitemap.isCacheValid s t1 = true → Sitemap.toString s t1 = (s, s.cache)) ∧
    (s.cacheTime = 0 →
      (Sitemap.toString s t1).2 = Sitemap.renderSitemap s ∧
      (Sitemap.toString s t2).2 = Sitemap.renderSitemap s) ∧
    (s.cacheTime ≠ 0 → t2 ≤ (Sitemap.toString s t1).1.cacheSetTimestamp + s.cacheTime →
      (Sitemap.toString (Sitemap.toString s t1).1 t2).2 = (Sitemap.toString s t1).2) ∧
    (Sitemap.isCacheValid (Sitemap.toString s t1).1 t2 = false →
      (Sitemap.toString (Sitemap.toString s t1).1 t2).2 = Sitemap.renderSitemap s) := by
  refine ⟨fun hv => toString_hit s t1 hv, ?_, ?_, ?_⟩
  · intro h0
    have hf : ∀ t, Sitemap.isCacheValid s t = false := fun t => by
      simp [Sitemap.isCacheValid, h0]
    rw [toString_miss s t1 (hf t1), toString_miss s t2 (hf t2)]
    exact ⟨rfl, rfl⟩
  · intro httl hwin
    cases hv : Sitemap.isCacheValid s t1 with
    | true =>
      rw [toString_hit s t1 hv] at hwin ⊢
      have hv1 := hv
      rw [Sitemap.isCacheValid] at hv1
      simp only [Bool.and_eq_true, decide_eq_true_eq] at hv1
      have hv2 : Sitemap.isCacheValid s t2 = true := by
        rw [Sitemap.isCacheValid]
        simp only [Bool.and_eq_true, decide_eq_true_eq]
        exact ⟨hv1.1, hwin⟩
      rw [toString_hit s t2 hv2]
    | false =>
      rw [toString_miss s t1 hv] at hwin ⊢
      have hwin2 : t2 ≤ t1 + s.cacheTime := by
        simpa [Sitemap.setCache] using hwin
      have hv2 : Sitemap.isCacheValid
          (Sitemap.setCache s (Sitemap.renderSitemap s) t1) t2 = true := by
        rw [Sitemap.isCacheValid]
        simp only [Sitemap.setCache, Bool.and_eq_true, decide_eq_true_eq]
        exact ⟨⟨by simpa [bne_iff_ne] using httl,
          by simpa [bne_iff_ne] using renderSitemap_ne_empty s⟩, hwin2⟩
      rw [toString_hit _ t2 hv2]
      rfl
  · intro hv2
    cases hv : Sitemap.isCacheValid s t1 with
    | true =>
      rw [toString_hit s t1 hv] at hv2 ⊢
      rw [toString_miss s t2 hv2]
    | false =>
      rw [toString_miss s t1 hv] at hv2 ⊢
      rw [toString_miss _ t2 hv2]
      rfl

def sitemapC3Fresh : SitemapState :=
  { limit := 5000, urls := [], cacheTime := 5, cache := "", cacheSetTimestamp := 0,
    hostname := none, xslUrl := none, xmlNs := none }

def sitemapC3Cached : SitemapState :=
  { limit := 5000, urls := [], cacheTime := 5, cache := "cached", cacheSetTimestamp := 0,
    hostname := none, xslUrl := none, xmlNs := none }

def sitemapC3NoTTL : SitemapState :=
  { limit := 5000, urls := [], cacheTime := 0, cache := "cached", cacheSetTimestamp := 0,
    hostname := none, xslUrl := none, xmlNs := none }

theorem toString_cache_spec_witness :
    Sitemap.toString sitemapC3Cached 1 = (sitemapC3Cached, "cached") ∧
    (Sitemap.toString sitemapC3NoTTL 1).2 = Sitemap.renderSitemap sitemapC3NoTTL ∧
    (Sitemap.toString (Sitemap.toString sitemapC3Fresh 1).1 3).2 =
      (Sitemap.toString sitemapC3Fresh 1).2 := by
  refine ⟨(toString_cache_spec sitemapC3Cached 1 2).1 (by decide),
    ((toString_cache_spec sitemapC3NoTTL 1 2).2.1 rfl).1,
    (toString_cache_spec sitemapC3Fresh 1 3).2.2.1 (by decide) ?_⟩
  show (3 : Nat) ≤ (Sitemap.toString sitemapC3Fresh 1).1.cacheSetTimestamp + 5
  have h1 : Sitemap.isCacheValid sitemapC3Fresh 1 = false := by decide
  rw [toString_miss sitemapC3Fresh 1 h1]
  simp [Sitemap.setCache]

theorem countHead_items_close (es : List SitemapItemOptions) :
    countHead (es.map StreamChunk.item ++ [StreamChunk.close]) = 0 := by
  induction es with
  | nil => rfl
  | cons e rest ih => simpa [countHead] using ih

theorem runFrom_cons (st : SitemapStreamState) (i : ISitemapItemOptionsLoose)
    (rest : List ISitemapItemOptionsLoose) (st1 : SitemapStreamState)
    (h : SitemapStream.transform st i = some st1) :
    SitemapStream.runFrom st (i :: rest) = SitemapStream.runFrom st1 rest := by
  rw [SitemapStream.runFrom, h]

theorem runFrom_of_head (items : List ISitemapItemOptionsLoose) :
    ∀ (st : SitemapStreamState) (es : List SitemapItemOptions),
    st.hasHeadOutput = true →
    Sitemap.normalizeList st.hostname items = some es →
    SitemapStream.runFrom st items =
      some { st with out := st.out ++ (es.map StreamChunk.item ++ [StreamChunk.close]) } := by
  induction items with
  | nil =>
    intro st es hh hn
    rw [Sitemap.normalizeList] at hn
    cases hn
    simp [SitemapStream.runFrom, SitemapStream.flush]
  | cons i rest ih =>
    intro st es hh hn
    rw [Sitemap.normalizeList] at hn
    cases he : Sitemap.normalizeURL (Sum.inr i) st.hostname with
    | none => rw [he] at hn; cases hn
    | some e =>
      rw [he] at hn
      cases hr : Sitemap.normalizeList st.hostname rest with
      | none => rw [hr] at hn; cases hn
      | some es2 =>
        rw [hr] at hn
        simp only [Option.map_some'] at hn
        cases hn
        have htr : SitemapStream.transform st i =
            some { st with out := st.out ++ [StreamChunk.item e] } := by
          simp [SitemapStream.transform, hh, he]
        have hrec := ih { st with out := st.out ++ [StreamChunk.item e] } es2 hh
          (by simpa using hr)
        rw [runFrom_cons st i rest _ htr, hrec]
        simp

/-- C2: for the streaming emitter, pushing zero entries before stream end
produces exactly the root closing tag (no preamble); pushing at least one
entry produces the preamble, then one fragment per entry in push order,
then the closing tag — the preamble is emitted exactly once and precedes
every entry fragment. -/
theorem stream_output_shape (hostname : Option String)
    (items : List ISitemapItemOptionsLoose) (es : List SitemapItemOptions)
    (hn : Sitemap.normalizeList hostname items = some es) :
    SitemapStream.run hostname items =
      some (if items.isEmpty then [StreamChunk.close]
            else StreamChunk.head :: (es.map StreamChunk.item ++ [StreamChunk.close])) ∧
    countHead (if items.isEmpty then [StreamChunk.close]
               else StreamChunk.head :: (es.map StreamChunk.item ++ [StreamChunk.close]))
      = (if items.isEmpty then 0 else 1) ∧
    (items.isEmpty = false →
      (if items.isEmpty then [StreamChunk.close]
       else StreamChunk.head :: (es.map StreamChunk.item ++ [StreamChunk.close])).head?
        = some StreamChunk.head) := by
  cases items with
  | nil =>
    rw [Sitemap.normalizeList] at hn
    cases hn
    refine ⟨rfl, rfl, by intro h; cases h⟩
  | cons i rest =>
    rw [Sitemap.normalizeList] at hn
    cases he : Sitemap.normalizeURL (Sum.inr i) hostname with
    | none => rw [he] at hn; cases hn
    | some e =>
      rw [he] at hn
      cases hr : Sitemap.normalizeList hostname rest with
      | none => rw [hr] at hn; cases hn
      | some es2 =>
        rw [hr] at hn
        simp only [Option.map_some'] at hn
        cases hn
        have htr : SitemapStream.transform (SitemapStream.init hostname) i =
            some { hasHeadOutput := true, hostname := hostname,
                   out := [StreamChunk.head, StreamChunk.item e] } := by
          simp [SitemapStream.transform, SitemapStream.init, he]
        have hrun := runFrom_of_head rest
          { hasHeadOutput := true, hostname := hostname,
            out := [StreamChunk.head, StreamChunk.item e] } es2 rfl (by simpa using hr)
        refine ⟨?_, ?_, fun _ => rfl⟩
        · rw [SitemapStream.run, runFrom_cons _ i rest _ htr, hrun]
          simp
        · simp only [List.isEmpty_cons, if_false, Bool.false_eq_true]
          simpa [countHead] using countHead_items_close (e :: es2)

def looseC2w : ISitemapItemOptionsLoose := { url := "http://e.co/a" }

def entryC2w : SitemapItemOptions := { url := "http://e.co/a" }

theorem stream_output_shape_witness :
    SitemapStream.run none [] = some [StreamChunk.close] ∧
    SitemapStream.run none [looseC2w] =
      some [StreamChunk.head, StreamChunk.item entryC2w, StreamChunk.close] ∧
    countHead [StreamChunk.head, StreamChunk.item entryC2w, StreamChunk.close] = 1 ∧
    ([StreamChunk.head, StreamChunk.item entryC2w,
      StreamChunk.close] : List StreamChunk).head? = some StreamChunk.head := by
  have h0 := stream_output_shape none [] [] rfl
  have h1 := stream_output_shape none [looseC2w] [entryC2w] rfl
  exact ⟨h0.1, h1.1, h1.2.1, h1.2.2 rfl⟩

theorem mutateImg_fields (l : ISitemapItemOptionsLoose) :
    (mutateImg l).url = l.url ∧ (mutateImg l).video = l.video ∧
    (mutateImg l).links = l.links ∧ (mutateImg l).lastmod = l.lastmod ∧
    (mutateImg l).lastmodISO = l.lastmodISO ∧
    (mutateImg l).lastmodfile = l.lastmodfile ∧
    (mutateImg l).changefreq = l.changefreq ∧
    (mutateImg l).priority = l.priority := by
  unfold mutateImg
  split <;> simp

theorem mutateVideo_fields (l : ISitemapItemOptionsLoose) :
    (mutateVideo l).url = l.url ∧ (mutateVideo l).img = l.img ∧
    (mutateVideo l).links = l.links ∧ (mutateVideo l).lastmod = l.lastmod ∧
    (mutateVideo l).lastmodISO = l.lastmodISO ∧
    (mutateVideo l).lastmodfile = l.lastmodfile ∧
    (mutateVideo l).changefreq = l.changefreq ∧
    (mutateVideo l).priority = l.priority := by
  unfold mutateVideo
  split <;> simp

theorem imgToArray_mutateImg (l : ISitemapItemOptionsLoose) :
    imgToArray (mutateImg l).img = imgToArray l.img := by
  unfold mutateImg
  split <;> simp_all [imgToArray]

theorem videoToArray_mutateVideo (l : ISitemapItemOptionsLoose) :
    videoToArray (mutateVideo l).video = videoToArray l.video := by
  unfold mutateVideo
  split <;> simp_all [videoToArray]

theorem resolveLastmod_congr (a b : ISitemapItemOptionsLoose)
    (h1 : a.lastmod = b.lastmod) (h2 : a.lastmodISO = b.lastmodISO)
    (h3 : a.lastmodfile = b.lastmodfile) :
    resolveLastmod a = resolveLastmod b := by
  unfold resolveLastmod
  rw [h1, h2, h3]

/-- Characterization of `Sitemap.normalizeURL` on object input, with the
two in-place rewrites of the loose object factored out. -/
theorem normalizeURLFull_inr (loose : ISitemapItemOptionsLoose) (host : Option String) :
    Sitemap.normalizeURLFull (Sum.inr loose) host =
      match resolveURL loose.url host with
      | none => none
      | some url =>
        match resolveImgs host (imgToArray loose.img) with
        | none => none
        | some img =>
          match resolveLinks host (loose.links.getD []) with
          | none => none
          | some links =>
            some ({ url := url, img := img,
                    video := (videoToArray loose.video).map normalizeVideo,
                    links := links,
                    lastmod := resolveLastmod loose,
                    lastmodISO := loose.lastmodISO,
                    lastmodfile := loose.lastmodfile,
                    changefreq := loose.changefreq,
                    priority := loose.priority },
                  mutateVideo (mutateImg loose)) := by
  simp only [Sitemap.normalizeURLFull]
  cases hu : resolveURL loose.url host with
  | none => rfl
  | some url =>
    rw [imgToArray_mutateImg, (mutateImg_fields loose).2.2.1]
    cases hi : resolveImgs host (imgToArray loose.img) with
    | none => rfl
    | some img =>
      cases hl : resolveLinks host (loose.links.getD []) with
      | none => rfl
      | some links =>
        have h1 : videoToArray (mutateVideo (mutateImg loose)).video =
            videoToArray loose.video := by
          rw [videoToArray_mutateVideo, (mutateImg_fields loose).2.1]
        have h2 : resolveLastmod (mutateVideo (mutateImg loose)) = resolveLastmod loose :=
          resolveLastmod_congr _ _
            (by rw [(mutateVideo_fields (mutateImg loose)).2.2.2.1,
                    (mutateImg_fields loose).2.2.2.1])
            (by rw [(mutateVideo_fields (mutateImg loose)).2.2.2.2.1,
                    (mutateImg_fields loose).2.2.2.2.1])
            (by rw [(mutateVideo_fields (mutateImg loose)).2.2.2.2.2.1,
                    (mutateImg_fields loose).2.2.2.2.2.1])
        rw [h1, h2,
          (mutateVideo_fields (mutateImg loose)).2.2.2.2.1,
          (mutateImg_fields loose).2.2.2.2.1,
          (mutateVideo_fields (mutateImg loose)).2.2.2.2.2.1,
          (mutateImg_fields loose).2.2.2.2.2.1,
          (mutateVideo_fields (mutateImg loose)).2.2.2.2.2.2.1,
          (mutateImg_fields loose).2.2.2.2.2.2.1,
          (mutateVideo_fields (mutateImg loose)).2.2.2.2.2.2.2,
          (mutateImg_fields loose).2.2.2.2.2.2.2]

theorem normalizeURLFull_some_inv (loose : ISitemapItemOptionsLoose)
    (host : Option String) (p : SitemapItemOptions × ISitemapItemOptionsLoose)
    (h : Sitemap.normalizeURLFull (Sum.inr loose) host = some p) :
    ∃ url img links,
      resolveURL loose.url host = some url ∧
      resolveImgs host (imgToArray loose.img) = some img ∧
      resolveLinks host (loose.links.getD []) = some links ∧
      p = ({ url := url, img := img,
             video := (videoToArray loose.video).map normalizeVideo,
             links := links,
             lastmod := resolveLastmod loose,
             lastmodISO := loose.lastmodISO,
             lastmodfile := loose.lastmodfile,
             changefreq := loose.changefreq,
             priority := loose.priority },
           mutateVideo (mutateImg loose)) := by
  rw [normalizeURLFull_inr] at h
  cases hu : resolveURL loose.url host with
  | none => rw [hu] at h; cases h
  | some url =>
    rw [hu] at h
    cases hi : resolveImgs host (imgToArray loose.img) with
    | none => rw [hi] at h; cases h
    | some img =>
      rw [hi] at h
      cases hl : resolveLinks host (loose.links.getD []) with
      | none => rw [hl] at h; cases h
      | some links =>
        rw [hl] at h
        cases h
        exact ⟨url, img, links, rfl, rfl, rfl, rfl⟩

theorem normalizeURL_inr_lastmod (loose : ISitemapItemOptionsLoose)
    (host : Option String) (smi : SitemapItemOptions)
    (h : Sitemap.normalizeURL (Sum.inr loose) host = some smi) :
    smi.lastmod = resolveLastmod loose := by
  rw [Sitemap.normalizeURL] at h
  cases hp : Sitemap.normalizeURLFull (Sum.inr loose) host with
  | none => rw [hp] at h; cases h
  | some p =>
    rw [hp] at h
    simp only [Option.map_some'] at h
    obtain ⟨url, img, links, _, _, _, hpe⟩ := normalizeURLFull_some_inv loose host p hp
    cases h
    rw [hpe]

/-- C4: last-modified resolution follows the precedence `lastmodfile`, then
`lastmodISO`, then `lastmod`, first (truthy) match wins — `lastmodfile`
yields the referenced file's modification time converted to ISO-8601,
`lastmodISO` and `lastmod` are parsed as dates and converted to ISO-8601 —
and when none of the three is present the strict entry carries no
last-modified value. -/
theorem lastmod_precedence (loose : ISitemapItemOptionsLoose)
    (host : Option String) (smi : SitemapItemOptions)
    (h : Sitemap.normalizeURL (Sum.inr loose) host = some smi) :
    (truthy loose.lastmodfile = true →
      smi.lastmod = loose.lastmodfile.map LastmodVal.fromFile) ∧
    (truthy loose.lastmodfile = false → truthy loose.lastmodISO = true →
      smi.lastmod = loose.lastmodISO.map LastmodVal.fromDateString) ∧
    (truthy loose.lastmodfile = false → truthy loose.lastmodISO = false →
      truthy loose.lastmod = true →
      smi.lastmod = loose.lastmod.map LastmodVal.fromDateString) ∧
    (loose.lastmodfile = none → loose.lastmodISO = none → loose.lastmod = none →
      smi.lastmod = none) := by
  have hsm : smi.lastmod = resolveLastmod loose := normalizeURL_inr_lastmod loose host smi h
  refine ⟨?_, ?_, ?_, ?_⟩
  · intro h1
    rw [hsm]
    simp [resolveLastmod, h1]
  · intro h1 h2
    rw [hsm]
    simp [resolveLastmod, h1, h2]
  · intro h1 h2 h3
    rw [hsm]
    simp [resolveLastmod, h1, h2, h3]
  · intro h1 h2 h3
    rw [hsm]
    simp [resolveLastmod, h1, h2, h3, truthy]

def looseC4w : ISitemapItemOptionsLoose :=
  { url := "http://e.co/a", lastmod := some "2018-11-26",
    lastmodISO := some "2019-01-01" }

def entryC4w : SitemapItemOptions :=
  { url := "http://e.co/a", lastmod := some (LastmodVal.fromDateString "2019-01-01"),
    lastmodISO := some "2019-01-01" }

theorem lastmod_precedence_witness :
    truthy looseC4w.lastmodfile = false ∧
    truthy looseC4w.lastmodISO = true ∧
    entryC4w.lastmod = some (LastmodVal.fromDateString "2019-01-01") := by
  have h := lastmod_precedence looseC4w none entryC4w rfl
  exact ⟨rfl, rfl, h.2.1 rfl rfl⟩

/-- An `img` field that the in-place rewrite leaves alone: absent or
already an array. -/
def imgFieldArrOrAbsent : Option ImgLooseField → Bool
  | none => true
  | some (ImgLooseField.many _) => true
  | some (ImgLooseField.str _) => false
  | some (ImgLooseField.one _) => false

/-- A `video` field that the in-place rewrite leaves alone: absent or
already an array. -/
def videoFieldArrOrAbsent : Option VideoLooseField → Bool
  | none => true
  | some (VideoLooseField.many _) => true
  | some (VideoLooseField.one _) => false

theorem mutateImg_id_of_arr (l : ISitemapItemOptionsLoose)
    (h : imgFieldArrOrAbsent l.img = true) : mutateImg l = l := by
  unfold mutateImg
  cases hi : l.img with
  | none => rfl
  | some f =>
    cases f with
    | str s => rw [hi] at h; simp [imgFieldArrOrAbsent] at h
    | one i => rw [hi] at h; simp [imgFieldArrOrAbsent] at h
    | many xs => rfl

theorem mutateVideo_id_of_arr (l : ISitemapItemOptionsLoose)
    (h : videoFieldArrOrAbsent l.video = true) : mutateVideo l = l := by
  unfold mutateVideo
  cases hv : l.video with
  | none => rfl
  | some f =>
    cases f with
    | one v => rw [hv] at h; simp [videoFieldArrOrAbsent] at h
    | many vs => rfl

def looseC8 : ISitemapItemOptionsLoose :=
  { url := "http://e.co/p", img := some (ImgLooseField.str "http://e.co/i.png") }

/-- C8 counterexample: normalization is not free of writes to the caller's
object — on a loose entry whose `img` is a bare string, `normalizeURL`
rewrites the caller's `img` field to its array form (sitemap.ts line 239),
so the loose object that comes back out of the call differs from the one
passed in. -/
theorem normalizeURL_mutates_input :
    (Sitemap.normalizeURLFull (Sum.inr looseC8) none).map Prod.snd ≠ some looseC8 := by
  decide

/-- C8 amended: `normalize` is pure aside from the file-modification-time
read, except that the source mutates the caller-supplied object's `img` and
`video` fields into their one-element array forms when they are supplied in
scalar shape (sitemap.ts lines 239, 242, 263); every other field of the
caller's object is left unchanged, and an input whose `img` and `video` are
absent or already arrays is left entirely unchanged. -/
theorem normalizeURL_mutation_extent (loose : ISitemapItemOptionsLoose)
    (host : Option String) (smi : SitemapItemOptions) (l1 : ISitemapItemOptionsLoose)
    (h : Sitemap.normalizeURLFull (Sum.inr loose) host = some (smi, l1)) :
    l1 = mutateVideo (mutateImg loose) ∧
    l1.url = loose.url ∧ l1.links = loose.links ∧ l1.lastmod = loose.lastmod ∧
    l1.lastmodISO = loose.lastmodISO ∧ l1.lastmodfile = loose.lastmodfile ∧
    l1.changefreq = loose.changefreq ∧ l1.priority = loose.priority ∧
    (imgFieldArrOrAbsent loose.img = true → l1.img = loose.img) ∧
    (videoFieldArrOrAbsent loose.video = true → l1.video = loose.video) ∧
    (imgFieldArrOrAbsent loose.img = true → videoFieldArrOrAbsent loose.video = true →
      l1 = loose) := by
  obtain ⟨url, img, links, _, _, _, hpe⟩ := normalizeURLFull_some_inv loose host _ h
  have hl1 : l1 = mutateVideo (mutateImg loose) := congrArg Prod.snd hpe
  have hmi := mutateImg_fields loose
  have hmv := mutateVideo_fields (mutateImg loose)
  refine ⟨hl1, ?_, ?_, ?_, ?_, ?_, ?_, ?_, ?_, ?_, ?_⟩
  · rw [hl1, hmv.1, hmi.1]
  · rw [hl1, hmv.2.2.1, hmi.2.2.1]
  · rw [hl1, hmv.2.2.2.1, hmi.2.2.2.1]
  · rw [hl1, hmv.2.2.2.2.1, hmi.2.2.2.2.1]
  · rw [hl1, hmv.2.2.2.2.2.1, hmi.2.2.2.2.2.1]
  · rw [hl1, hmv.2.2.2.2.2.2.1, hmi.2.2.2.2.2.2.1]
  · rw [hl1, hmv.2.2.2.2.2.2.2, hmi.2.2.2.2.2.2.2]
  · intro ha
    rw [hl1, hmv.2.1, mutateImg_id_of_arr loose ha]
  · intro ha
    rw [hl1, mutateVideo_id_of_arr (mutateImg loose) (by rw [hmi.2.1]; exact ha), hmi.2.1]
  · intro ha hv
    rw [hl1, mutateImg_id_of_arr loose ha, mutateVideo_id_of_arr loose hv]

def entryC8val : SitemapItemOptions :=
  { url := "http://e.co/p", img := [{ url := "http://e.co/i.png" }] }

def mutatedC8val : ISitemapItemOptionsLoose :=
  { url := "http://e.co/p",
    img := some (ImgLooseField.many [Sum.inr { url := "http://e.co/i.png" }]) }

def looseC8Arr : ISitemapItemOptionsLoose :=
  { url := "http://e.co/p",
    img := some (ImgLooseField.many [Sum.inl "http://e.co/i.png"]) }

theorem normalizeURL_mutation_extent_witness :
    mutatedC8val = mutateVideo (mutateImg looseC8) ∧
    mutatedC8val.priority = looseC8.priority ∧
    looseC8Arr = looseC8Arr := by
  have h1 := normalizeURL_mutation_extent looseC8 none entryC8val mutatedC8val rfl
  have h2 := normalizeURL_mutation_extent looseC8Arr none entryC8val looseC8Arr rfl
  obtain ⟨a1, _, _, _, _, _, _, a8, _, _, _⟩ := h1
  obtain ⟨_, _, _, _, _, _, _, _, _, _, b11⟩ := h2
  exact ⟨a1, a8, b11 rfl rfl⟩

theorem strStartsWith_append_left (p x y : String) :
    strStartsWith ((p ++ x) ++ y) p = true := by
  rw [strStartsWith, List.isPrefixOf_iff_prefix]
  rw [String.data_append, String.data_append, List.append_assoc]
  exact List.prefix_append p.data (x.data ++ y.data)

theorem isAbsoluteURL_urlOrigin_append (b t : String) (hb : isAbsoluteURL b = true) :
    isAbsoluteURL (urlOrigin b ++ t) = true := by
  unfold isAbsoluteURL at hb ⊢
  unfold urlOrigin
  by_cases h1 : strStartsWith b "http://" = true
  · rw [if_pos h1, strStartsWith_append_left]
    simp
  · have h2 : strStartsWith b "https://" = true := by
      rcases Bool.or_eq_true_iff.mp hb with hc | hc
      · exact absurd hc h1
      · exact hc
    rw [if_neg h1, if_pos h2, strStartsWith_append_left]
    simp

theorem resolveURL_absolute (u b r : String) (hb : isAbsoluteURL b = true)
    (h : resolveURL u (some b) = some r) : isAbsoluteURL r = true := by
  unfold resolveURL at h
  by_cases ha : isAbsoluteURL u = true
  · rw [if_pos ha] at h
    cases h
    exact ha
  · simp only [if_neg ha, if_pos hb] at h
    cases h
    exact isAbsoluteURL_urlOrigin_append b _ hb

theorem resolveImgs_forall2 (host : Option String) :
    ∀ (l r : List ISitemapImg), resolveImgs host l = some r →
    List.Forall₂ (fun el rl => resolveURL el.url host = some rl.url ∧
      rl.caption = el.caption ∧ rl.title = el.title) l r := by
  intro l
  induction l with
  | nil =>
    intro r h
    cases h
    constructor
  | cons el rest ih =>
    intro r h
    rw [resolveImgs] at h
    cases hu : resolveURL el.url host with
    | none => rw [hu] at h; cases h
    | some u =>
      rw [hu] at h
      cases hr : resolveImgs host rest with
      | none => rw [hr] at h; cases h
      | some r2 =>
        rw [hr] at h
        simp only [Option.map_some'] at h
        cases h
        exact List.Forall₂.cons ⟨hu, rfl, rfl⟩ (ih r2 hr)

theorem resolveLinks_forall2 (host : Option String) :
    ∀ (l r : List ILinkItem), resolveLinks host l = some r →
    List.Forall₂ (fun el rl => resolveURL el.url host = some rl.url ∧
      rl.lang = el.lang) l r := by
  intro l
  induction l with
  | nil =>
    intro r h
    cases h
    constructor
  | cons el rest ih =>
    intro r h
    rw [resolveLinks] at h
    cases hu : resolveURL el.url host with
    | none => rw [hu] at h; cases h
    | some u =>
      rw [hu] at h
      cases hr : resolveLinks host rest with
      | none => rw [hr] at h; cases h
      | some r2 =>
        rw [hr] at h
        simp only [Option.map_some'] at h
        cases h
        exact List.Forall₂.cons ⟨hu, rfl⟩ (ih r2 hr)

theorem resolveImgs_all_absolute (host : String) (hb : isAbsoluteURL host = true) :
    ∀ (l r : List ISitemapImg), resolveImgs (some host) l = some r →
    r.all (fun im => isAbsoluteURL im.url) = true := by
  intro l
  induction l with
  | nil =>
    intro r h
    cases h
    rfl
  | cons el rest ih =>
    intro r h
    rw [resolveImgs] at h
    cases hu : resolveURL el.url (some host) with
    | none => rw [hu] at h; cases h
    | some u =>
      rw [hu] at h
      cases hr : resolveImgs (some host) rest with
      | none => rw [hr] at h; cases h
      | some r2 =>
        rw [hr] at h
        simp only [Option.map_some'] at h
        cases h
        simp only [List.all_cons, Bool.and_eq_true]
        exact ⟨resolveURL_absolute el.url host u hb hu, ih r2 hr⟩

theorem resolveLinks_all_absolute (host : String) (hb : isAbsoluteURL host = true) :
    ∀ (l r : List ILinkItem), resolveLinks (some host) l = some r →
    r.all (fun lk => isAbsoluteURL lk.url) = true := by
  intro l
  induction l with
  | nil =>
    intro r h
    cases h
    rfl
  | cons el rest ih =>
    intro r h
    rw [resolveLinks] at h
    cases hu : resolveURL el.url (some host) with
    | none => rw [hu] at h; cases h
    | some u =>
      rw [hu] at h
      cases hr : resolveLinks (some host) rest with
      | none => rw [hr] at h; cases h
      | some r2 =>
        rw [hr] at h
        simp only [Option.map_some'] at h
        cases h
        simp only [List.all_cons, Bool.and_eq_true]
        exact ⟨resolveURL_absolute el.url host u hb hu, ih r2 hr⟩

theorem normalizeVideo_thumbnail (v : IVideoItemLoose) :
    (normalizeVideo v).thumbnail_loc = v.thumbnail_loc := by
  simp only [normalizeVideo]
  split <;> split <;> split <;> rfl

def looseC5cx : ISitemapItemOptionsLoose :=
  { url := "/p",
    video := some (VideoLooseField.one
      { thumbnail_loc := "/thumb.jpg", title := "t", description := "d" }) }

/-- C5 counterexample: not every URL in the strict entry is absolute.  The
video map at sitemap.ts lines 260-294 never resolves video URLs against the
hostname — for a loose entry with a relative URL, a configured absolute
base hostname and a video whose `thumbnail_loc` is relative, normalization
succeeds but the strict entry's video URL comes through exactly as
supplied, and is not absolute. -/
theorem normalizeURL_video_url_stays_relative :
    isAbsoluteURL looseC5cx.url = false ∧
    isAbsoluteURL "http://e.co" = true ∧
    (Sitemap.normalizeURL (Sum.inr looseC5cx) (some "http://e.co")).map
        (fun smi => smi.video.map (fun v => v.thumbnail_loc)) = some ["/thumb.jpg"] ∧
    isAbsoluteURL "/thumb.jpg" = false := by
  exact ⟨by decide, by decide, by decide, by decide⟩

/-- C5 (amended): for every loose entry with a relative URL and a
configured base hostname, normalization produces an absolute URL equal to
resolving that relative URL against the hostname; the same resolution is
applied independently to every image URL and every alternate-link URL
(other image and link fields spread through), so the entry URL and every
image and alternate-link URL in the strict entry are absolute — while the
strict entry's video URLs (`thumbnail_loc`) are not resolved and pass
through exactly as supplied. -/
theorem normalize_resolves_urls (loose : ISitemapItemOptionsLoose) (host : String)
    (smi : SitemapItemOptions)
    (hhost : isAbsoluteURL host = true)
    (_hrel : isAbsoluteURL loose.url = false)
    (h : Sitemap.normalizeURL (Sum.inr loose) (some host) = some smi) :
    resolveURL loose.url (some host) = some smi.url ∧
    List.Forall₂ (fun (el rl : ISitemapImg) => resolveURL el.url (some host) = some rl.url)
      (imgToArray loose.img) smi.img ∧
    List.Forall₂ (fun (el rl : ILinkItem) => resolveURL el.url (some host) = some rl.url)
      (loose.links.getD []) smi.links ∧
    isAbsoluteURL smi.url = true ∧
    smi.img.all (fun im => isAbsoluteURL im.url) = true ∧
    smi.links.all (fun lk => isAbsoluteURL lk.url) = true ∧
    smi.video.map (fun v => v.thumbnail_loc) =
      (videoToArray loose.video).map (fun v => v.thumbnail_loc) := by
  rw [Sitemap.normalizeURL] at h
  cases hp : Sitemap.normalizeURLFull (Sum.inr loose) (some host) with
  | none => rw [hp] at h; cases h
  | some p =>
    rw [hp] at h
    simp only [Option.map_some'] at h
    obtain ⟨url, img, links, hu, hi, hl, hpe⟩ :=
      normalizeURLFull_some_inv loose (some host) p hp
    cases h
    rw [hpe]
    refine ⟨hu, ?_, ?_, ?_, ?_, ?_, ?_⟩
    · exact List.Forall₂.imp (fun a b hab => hab.1) (resolveImgs_forall2 (some host) _ _ hi)
    · exact List.Forall₂.imp (fun a b hab => hab.1) (resolveLinks_forall2 (some host) _ _ hl)
    · exact resolveURL_absolute loose.url host url hhost hu
    · exact resolveImgs_all_absolute host hhost _ _ hi
    · exact resolveLinks_all_absolute host hhost _ _ hl
    · simp [List.map_map, Function.comp, normalizeVideo_thumbnail]

def looseC5w : ISitemapItemOptionsLoose :=
  { url := "/p", img := some (ImgLooseField.many [Sum.inl "/i.png"]),
    links := some [{ lang := "de", url := "/de" }],
    video := some (VideoLooseField.many
      [{ thumbnail_loc := "/t.jpg", title := "t", description := "d" }]) }

def entryC5w : SitemapItemOptions :=
  { url := "http://e.co/p", img := [{ url := "http://e.co/i.png" }],
    links := [{ lang := "de", url := "http://e.co/de" }],
    video := [{ thumbnail_loc := "/t.jpg", title := "t", description := "d" }] }

theorem normalize_resolves_urls_witness :
    resolveURL "/p" (some "http://e.co") = some "http://e.co/p" ∧
    isAbsoluteURL "http://e.co/p" = true ∧
    ([{ url := "http://e.co/i.png" }] : List ISitemapImg).all
      (fun im => isAbsoluteURL im.url) = true ∧
    ([{ lang := "de", url := "http://e.co/de" }] : List ILinkItem).all
      (fun lk => isAbsoluteURL lk.url) = true ∧
    ([{ thumbnail_loc := "/t.jpg", title := "t",
        description := "d" }] : List IVideoItem).map
      (fun v => v.thumbnail_loc) = ["/t.jpg"] := by
  have h := normalize_resolves_urls looseC5w "http://e.co" entryC5w rfl rfl (by decide)
  exact ⟨h.1, h.2.2.2.1, h.2.2.2.2.1, h.2.2.2.2.2.1, h.2.2.2.2.2.2⟩

/-- C10: the index orchestrator invoked without a configured (existing)
target location fails with the `UndefinedTargetFolder` configuration
precondition error before performing any partitioning work — the result is
the same whatever the url data, and an error result carries no written
chunk document — and this error is a constructor distinct from every
data-dependent runtime error. -/
theorem createSitemapIndex_requires_targetFolder
    (folderExists : String → Bool) (conf : SitemapIndexConfig)
    (h : conf.targetFolder = none ∨
      ∃ tf, conf.targetFolder = some tf ∧ folderExists tf = false) :
    createSitemapIndex folderExists conf =
      Except.error IndexError.undefinedTargetFolder ∧
    (∀ urls2, createSitemapIndex folderExists { conf with urls := urls2 } =
      Except.error IndexError.undefinedTargetFolder) ∧
    (∀ m, IndexError.undefinedTargetFolder ≠ IndexError.runtime m) := by
  have key : ∀ (c : SitemapIndexConfig), c.targetFolder = conf.targetFolder →
      createSitemapIndex folderExists c =
        Except.error IndexError.undefinedTargetFolder := by
    intro c hc
    rcases h with h0 | ⟨tf, htf, hfe⟩
    · rw [createSitemapIndex, hc, h0]
    · rw [createSitemapIndex, hc, htf]
      simp [hfe]
  refine ⟨key conf rfl, fun urls2 => key _ rfl, ?_⟩
  intro m hcontra
  cases hcontra

def confC10w : SitemapIndexConfig :=
  { urls := [Sum.inl "http://ya.ru", Sum.inl "http://ya2.ru"],
    sitemapName := "sm-test", sitemapSize := 1, targetFolder := some "/tmp2" }

theorem createSitemapIndex_requires_targetFolder_witness :
    createSitemapIndex (fun _ => false) confC10w =
      Except.error IndexError.undefinedTargetFolder ∧
    IndexError.undefinedTargetFolder ≠ IndexError.runtime "invalid URL in input" := by
  have h := createSitemapIndex_requires_targetFolder (fun _ => false) confC10w
    (Or.inr ⟨"/tmp2", rfl, rfl⟩)
  exact ⟨h.1, h.2.2 "invalid URL in input"⟩
